import Mathlib

/-!
Shallow embedding of the Binance historical-price downloader (`src/main.py`)
of the `get-all-prices` repository, together with theorems settling the
specified behaviour of the Range Fetcher (`fetch_klines`), the
first-trading-date probe (`get_first_trading_date`) and the Backfill Driver
(the main download loop of `main`).

The network is modelled as an oracle: the fetcher receives one `Attempt`
outcome per request attempt, the driver receives one fetch outcome per loop
iteration.  Sleeps and checkpoint writes are recorded as explicit effects so
that backoff schedules and checkpoint contents can be reasoned about.
-/

namespace GetAllPrices

/-- `INTERVAL_TO_MS` dictionary of `src/main.py` (lines 21-37): candle
interval name to its duration in milliseconds. -/
def INTERVAL_TO_MS : List (String × Nat) :=
  [("1m", 60 * 1000),
   ("3m", 3 * 60 * 1000),
   ("5m", 5 * 60 * 1000),
   ("15m", 15 * 60 * 1000),
   ("30m", 30 * 60 * 1000),
   ("1h", 60 * 60 * 1000),
   ("2h", 2 * 60 * 60 * 1000),
   ("4h", 4 * 60 * 60 * 1000),
   ("6h", 6 * 60 * 60 * 1000),
   ("8h", 8 * 60 * 60 * 1000),
   ("12h", 12 * 60 * 60 * 1000),
   ("1d", 24 * 60 * 60 * 1000),
   ("3d", 3 * 24 * 60 * 60 * 1000),
   ("1w", 7 * 24 * 60 * 60 * 1000),
   ("1M", 30 * 24 * 60 * 60 * 1000)]

/-- Lookup in the interval dictionary, `INTERVAL_TO_MS[interval]`. -/
def intervalToMs (interval : String) : Option Nat :=
  INTERVAL_TO_MS.lookup interval

/-- One kline record as used by the code: the code only ever reads index 0
(open time in ms) and index 4 (close price, a decimal string as returned by
the API), so only those two fields are retained in the model. -/
structure Kline where
  openTime : Nat
  closePrice : String
  deriving DecidableEq, Repr

/-- Outcome of one HTTP request attempt, as classified by the code:
a response with a status code and a (decoded) body, or a raised exception
(`requests.exceptions.RequestException` / any other exception). -/
inductive Attempt where
  | resp (status : Nat) (body : List Kline)
  | netErr
  deriving DecidableEq, Repr

/-!  ## Range Fetcher: `fetch_klines` (src/main.py lines 101-149)

The attempt loop `for attempt in range(max_retries)` is modelled with
`fuel` counting the remaining iterations (`fetchKlines` starts it at
`maxRetries`, so `attempt + fuel = maxRetries` throughout).  The result is
the Python return value (`some body` for a 200 response — possibly the
empty list — and `none` for a fatal error) paired with the list of
`time.sleep` durations performed, in order, in seconds. -/

/-- One-or-zero trailing retry sleeps: `if attempt < max_retries - 1:
time.sleep(delay * (2 ** attempt))` at the bottom of the attempt loop
(lines 143-146). -/
def retrySleep (delay : ℚ) (maxRetries attempt : Nat) : List ℚ :=
  if attempt < maxRetries - 1 then [delay * 2 ^ attempt] else []

/-- The body of `fetch_klines`' attempt loop (lines 112-146), recursing on
the remaining attempt count. -/
def fetchKlinesGo (delay : ℚ) (maxRetries : Nat) (env : Nat → Attempt) :
    Nat → Nat → Option (List Kline) × List ℚ
  | _, 0 => (none, [])
  | attempt, fuel + 1 =>
    match env attempt with
    | .resp s body =>
      if s = 200 then
        (some body, [])
      else if s = 429 then
        let r := fetchKlinesGo delay maxRetries env (attempt + 1) fuel
        (r.1, delay * 2 ^ attempt :: (retrySleep delay maxRetries attempt ++ r.2))
      else if 500 ≤ s then
        let r := fetchKlinesGo delay maxRetries env (attempt + 1) fuel
        (r.1, delay * 2 ^ attempt :: (retrySleep delay maxRetries attempt ++ r.2))
      else
        (none, [])
    | .netErr =>
      let r := fetchKlinesGo delay maxRetries env (attempt + 1) fuel
      (r.1, retrySleep delay maxRetries attempt ++ r.2)

/-- `fetch_klines(start, end, symbol, interval, max_retries, delay)` with the
network abstracted to `env : Nat → Attempt` (outcome of each attempt).
Returns the Python return value and the performed sleep durations. -/
def fetchKlines (delay : ℚ) (maxRetries : Nat) (env : Nat → Attempt) :
    Option (List Kline) × List ℚ :=
  fetchKlinesGo delay maxRetries env 0 maxRetries

/-!  ## First-trading-date probe: `get_first_trading_date` (lines 48-99)

Same shape as the fetcher, but: a 200 with data returns `data[0][0]`; a 200
with an empty body returns `None`; a 429 sleeps `2 ** attempt` seconds; any
other status returns `None` immediately; the trailing retry sleep is a fixed
1 second.  Sleep durations are natural numbers of seconds here. -/

/-- Trailing `if attempt < max_retries - 1: time.sleep(1)` of the probe
(lines 95-96). -/
def probeRetrySleep (maxRetries attempt : Nat) : List Nat :=
  if attempt < maxRetries - 1 then [1] else []

/-- The body of `get_first_trading_date`'s attempt loop (lines 68-97). -/
def probeGo (maxRetries : Nat) (env : Nat → Attempt) :
    Nat → Nat → Option Nat × List Nat
  | _, 0 => (none, [])
  | attempt, fuel + 1 =>
    match env attempt with
    | .resp s body =>
      if s = 200 then
        match body with
        | [] => (none, [])
        | k :: _ => (some k.openTime, [])
      else if s = 429 then
        let r := probeGo maxRetries env (attempt + 1) fuel
        (r.1, 2 ^ attempt :: (probeRetrySleep maxRetries attempt ++ r.2))
      else
        (none, [])
    | .netErr =>
      let r := probeGo maxRetries env (attempt + 1) fuel
      (r.1, probeRetrySleep maxRetries attempt ++ r.2)

/-- `get_first_trading_date(symbol, interval, max_retries)` with the network
abstracted to `env`.  Returns the optional first-candle open time and the
performed sleep durations. -/
def getFirstTradingDate (maxRetries : Nat) (env : Nat → Attempt) :
    Option Nat × List Nat :=
  probeGo maxRetries env 0 maxRetries

/-!  ## Backfill Driver: the main download loop (src/main.py lines 160-265)

State variables of `main`: `current_start` (the cursor), `all_data` (the
accumulation buffer of `[timestamp, close_price]` pairs), `request_count`,
`last_successful_timestamp` and `empty_intervals`.  Observable effects —
`time.sleep` calls and `save_progress` checkpoint writes — are recorded in a
trace.  A fetch outcome is `fetch_klines`' return value: `none` for a fatal
error, `some []` for an empty window, `some ks` (nonempty) for data. -/

/-- The mutable state of the download loop in `main`. -/
structure DriverState where
  cursor : Nat
  buffer : List (Nat × String)
  requestCount : Nat
  lastSuccessful : Nat
  emptyIntervals : Nat
  deriving DecidableEq, Repr

/-- Initial driver state (lines 192-195): empty buffer, zero counters,
`last_successful_timestamp = current_start`. -/
def initState (cursor : Nat) : DriverState :=
  { cursor := cursor
    buffer := []
    requestCount := 0
    lastSuccessful := cursor
    emptyIntervals := 0 }

/-- Resolution of the initial cursor (lines 179-188): if the probe result is
truthy (not `None` and not `0`), use `max(date_to_milliseconds(start_date),
first_trading_timestamp)`; otherwise fall back to the user-specified date. -/
def resolveStart (userStartMs : Nat) (probeResult : Option Nat) : Nat :=
  match probeResult with
  | some t => if t ≠ 0 then max userStartMs t else userStartMs
  | none => userStartMs

/-- Observable side effects of the download loop: a `time.sleep` of the given
number of seconds, or a `save_progress` checkpoint write of the full buffer. -/
inductive Effect where
  | sleep (seconds : ℚ)
  | save (data : List (Nat × String))
  deriving DecidableEq, Repr

/-- The window passed to `fetch_klines` (lines 201-205):
`[current_start, min(current_start + 1000*interval_ms - 1, end_time)]`. -/
def fetchWindow (intervalMs endTime cursor : Nat) : Nat × Nat :=
  (cursor, min (cursor + 1000 * intervalMs - 1) endTime)

/-- The ceiling `max_empty_intervals = 100` (line 196). -/
def maxEmptyIntervals : Nat := 100

/-- One iteration of the loop body after the fetch (lines 207-249), given
the fetch outcome.  Returns the updated state, `true` if the loop continues
(`false` for the `break` on too many empty intervals), and the effects
performed during the iteration. -/
def driverStep (intervalMs : Nat) (st : DriverState) (r : Option (List Kline)) :
    DriverState × Bool × List Effect :=
  match r with
  | none =>
    (st, true, [Effect.sleep 60])
  | some [] =>
    let st1 : DriverState := { st with emptyIntervals := st.emptyIntervals + 1 }
    if st1.emptyIntervals > maxEmptyIntervals then
      (st1, false, [])
    else
      ({ st1 with cursor := st.cursor + 1000 * intervalMs - 1 + 1 }, true, [])
  | some (k :: tl) =>
    let batch := (k :: tl).map fun c => (c.openTime, c.closePrice)
    let st2 : DriverState :=
      { st with
          emptyIntervals := 0
          buffer := st.buffer ++ batch
          requestCount := st.requestCount + 1
          lastSuccessful := st.cursor
          cursor := ((k :: tl).getLast (List.cons_ne_nil k tl)).openTime + intervalMs }
    let checkpoint :=
      if st2.requestCount % 50 = 0 then [Effect.save st2.buffer] else []
    (st2, true, checkpoint ++ [Effect.sleep (1 / 5)])

/-- The `while current_start < end_time` loop (lines 199-249).  The network
is an oracle list: iteration `i` applies its `i`-th element to the computed
fetch window to obtain the fetch outcome; an exhausted oracle models the
loop being cut (user interrupt / unexpected exception), which in the real
program can happen at any iteration boundary. -/
def driverRun (intervalMs endTime : Nat) :
    List (Nat × Nat → Option (List Kline)) → DriverState → DriverState × List Effect
  | [], st => (st, [])
  | f :: rest, st =>
    if st.cursor < endTime then
      let s := driverStep intervalMs st (f (fetchWindow intervalMs endTime st.cursor))
      if s.2.1 then
        let t := driverRun intervalMs endTime rest s.1
        (t.1, s.2.2 ++ t.2)
      else
        (s.1, s.2.2)
    else
      (st, [])

/-- The final report emitted by the `finally` block (lines 259-264):
completion status (`current_start >= end_time`), the last successful
timestamp and the total request count. -/
structure FinalReport where
  completed : Bool
  lastSuccessful : Nat
  requestCount : Nat
  deriving DecidableEq, Repr

/-- The `finally` block (lines 255-264): one more `save_progress` of the full
buffer, then the report. -/
def finalize (endTime : Nat) (st : DriverState) : List Effect × FinalReport :=
  ([Effect.save st.buffer],
   { completed := decide (st.cursor ≥ endTime)
     lastSuccessful := st.lastSuccessful
     requestCount := st.requestCount })

/-- The whole download (`try`/`finally` of lines 198-264): run the loop, then
always finalize.  Returns the final state, the full effect trace, and the
final report. -/
def mainRun (intervalMs endTime : Nat)
    (env : List (Nat × Nat → Option (List Kline))) (st0 : DriverState) :
    DriverState × List Effect × FinalReport :=
  let r := driverRun intervalMs endTime env st0
  let f := finalize endTime r.1
  (r.1, r.2 ++ f.1, f.2)

/-- The contents of the checkpoint writes in an effect trace, in order. -/
def saveContents : List Effect → List (List (Nat × String))
  | [] => []
  | Effect.save d :: rest => d :: saveContents rest
  | Effect.sleep _ :: rest => saveContents rest

/-! ## Theorems about the Range Fetcher and the probe -/

/-- C5 counterexample: with the default `delay = 0.2` and `max_retries = 5`,
two 429 responses followed by a 200 with a non-empty body do NOT produce the
two sleeps `[delay, delay*2]` claimed: each 429 attempt triggers the sleep of
the rate-limit branch AND the end-of-loop retry sleep, giving four sleeps. -/
theorem c5_two_429_then_200_counterexample :
    (fetchKlines (1 / 5) 5 (fun i =>
        if i = 0 then .resp 429 [] else if i = 1 then .resp 429 []
        else .resp 200 [⟨0, "1"⟩])).2 ≠ [1 / 5, (1 / 5) * 2] := by
  intro h
  have hlen := congrArg List.length h
  simp [fetchKlines, fetchKlinesGo, retrySleep] at hlen

/-- C5 (amended): if the Range Fetcher receives status 429 on its first two
attempts and 200 with a non-empty body on the third (with the default
`max_retries = 5`), it returns the body after exactly four backoff sleeps,
of durations `delay, delay, delay*2, delay*2`: each 429 attempt sleeps
`delay * 2^attempt` once in the rate-limit branch and once more in the
end-of-loop retry delay. -/
theorem c5_two_429_then_200_amended (delay : ℚ) (k : Kline) (ks : List Kline) :
    fetchKlines delay 5 (fun i =>
        if i = 0 then .resp 429 [] else if i = 1 then .resp 429 []
        else .resp 200 (k :: ks))
      = (some (k :: ks), [delay, delay, delay * 2, delay * 2]) := by
  simp [fetchKlines, fetchKlinesGo, retrySleep, pow_succ]

/-- C6: on a client-side error status (a 4xx other than 429) at the first
attempt, `fetch_klines` returns the fatal error (`None`) immediately, with
no further attempts and no backoff sleep. -/
theorem c6_client_error_immediately_fatal (delay : ℚ) (maxRetries s : Nat)
    (b : List Kline) (env : Nat → Attempt)
    (h0 : env 0 = .resp s b) (h4 : 400 ≤ s) (h4' : s < 500) (h429 : s ≠ 429)
    (hmr : 0 < maxRetries) :
    fetchKlines delay maxRetries env = (none, []) := by
  obtain ⟨m, rfl⟩ : ∃ m, maxRetries = m + 1 := ⟨maxRetries - 1, by omega⟩
  have h200 : s ≠ 200 := by omega
  have h500 : ¬ 500 ≤ s := by omega
  simp [fetchKlines, fetchKlinesGo, h0, h200, h429, h500]

/-- Witness for C6 at a concrete 404 response. -/
theorem c6_client_error_immediately_fatal_witness :
    fetchKlines (1 / 5) 5 (fun _ => .resp 404 []) = (none, []) :=
  c6_client_error_immediately_fatal (1 / 5) 5 404 [] _ rfl (by decide) (by decide)
    (by decide) (by decide)

/-- C10: the first-trading-date probe returns `None` immediately — no retry,
no sleep — on any first-attempt status other than 200 and 429 (server errors
included), whereas the Range Fetcher retries a 5xx with backoff: a 503
followed by a 200 still succeeds there, after its two backoff sleeps. -/
theorem c10_probe_gives_up_on_non_200_429 (maxRetries s : Nat) (b : List Kline)
    (env : Nat → Attempt)
    (h0 : env 0 = .resp s b) (h200 : s ≠ 200) (h429 : s ≠ 429) (hmr : 0 < maxRetries) :
    getFirstTradingDate maxRetries env = (none, []) ∧
      ∀ (delay : ℚ) (body : List Kline) (env2 : Nat → Attempt),
        env2 0 = .resp 503 [] → env2 1 = .resp 200 body →
        fetchKlines delay 5 env2 = (some body, [delay, delay]) := by
  constructor
  · obtain ⟨m, rfl⟩ : ∃ m, maxRetries = m + 1 := ⟨maxRetries - 1, by omega⟩
    simp [getFirstTradingDate, probeGo, h0, h200, h429]
  · intro delay body env2 e0 e1
    simp [fetchKlines, fetchKlinesGo, retrySleep, e0, e1]

/-- Witness for C10 at a concrete 500 response (and the contrast instance
evaluated at `delay = 1/5`). -/
theorem c10_probe_gives_up_on_non_200_429_witness :
    getFirstTradingDate 3 (fun _ => .resp 500 []) = (none, []) ∧
      fetchKlines (1 / 5) 5 (fun i => if i = 0 then .resp 503 [] else .resp 200 [⟨7, "x"⟩])
        = (some [⟨7, "x"⟩], [1 / 5, 1 / 5]) := by
  have h := c10_probe_gives_up_on_non_200_429 3 500 [] (fun _ => .resp 500 [])
    rfl (by decide) (by decide) (by decide)
  exact ⟨h.1, h.2 (1 / 5) [⟨7, "x"⟩] _ rfl rfl⟩

/-- C7: the initial cursor is `max(user_start_ms, probe_result)` when the
probe returns a timestamp, and `user_start_ms` when the probe returns
`None`; in particular a user start date predating the probed first-trading
timestamp is overridden by the latter.  (For the probe result `0` —
falsy in Python, so the fallback branch is taken — both sides still agree,
since `max u 0 = u`.) -/
theorem c7_initial_cursor_resolution (u t : Nat) :
    resolveStart u (some t) = max u t ∧ resolveStart u none = u ∧
      (u ≤ t → resolveStart u (some t) = t) := by
  have h1 : resolveStart u (some t) = max u t := by
    by_cases h : t = 0
    · simp [resolveStart, h]
    · simp [resolveStart, h]
  exact ⟨h1, rfl, fun hle => by rw [h1]; exact max_eq_right hle⟩

/-- Witness for C7: a user start date predating the probed timestamp `9`
yields initial cursor `9`. -/
theorem c7_initial_cursor_resolution_witness : resolveStart 5 (some 9) = 9 :=
  (c7_initial_cursor_resolution 5 9).2.2 (by decide)

/-! ## Theorems about the Backfill Driver loop body -/

/-- On a nonempty fetch result the new cursor is the last returned record's
open time plus the interval duration. -/
theorem driverStep_cursor_nonempty (intervalMs : Nat) (st : DriverState)
    (ks : List Kline) (h : ks ≠ []) :
    (driverStep intervalMs st (some ks)).1.cursor = (ks.getLast h).openTime + intervalMs := by
  cases ks with
  | nil => exact absurd rfl h
  | cons k tl => rfl

/-- The last element of a list known to be `l' ++ [a]` is `a`. -/
theorem getLast_eq_of_eq_append (l l' : List Kline) (a : Kline) (h : l ≠ [])
    (he : l = l' ++ [a]) : l.getLast h = a := by
  subst he
  exact List.getLast_append_singleton _

/-- C1: a nonempty fetch result resets `consecutive_empty_count` to 0,
appends the records (as `[open_time, close_price]` pairs) to the buffer,
bumps the request count, and advances the cursor to the last record's
`open_time + interval_ms`; in particular 1000 one-minute candles whose
open times are `T, T+60000, …, T+999*60000` yield next cursor
`T + 1000*60000`. -/
theorem c1_nonempty_result_advances_cursor (intervalMs : Nat) (st : DriverState)
    (k : Kline) (tl : List Kline) :
    ((driverStep intervalMs st (some (k :: tl))).1.emptyIntervals = 0 ∧
     (driverStep intervalMs st (some (k :: tl))).1.buffer
       = st.buffer ++ (k :: tl).map (fun c => (c.openTime, c.closePrice)) ∧
     (driverStep intervalMs st (some (k :: tl))).1.cursor
       = ((k :: tl).getLast (List.cons_ne_nil k tl)).openTime + intervalMs ∧
     (driverStep intervalMs st (some (k :: tl))).1.requestCount = st.requestCount + 1 ∧
     (driverStep intervalMs st (some (k :: tl))).2.1 = true) ∧
    ∀ T px, (driverStep 60000 st (some ((List.range 1000).map fun i =>
        ⟨T + i * 60000, px⟩))).1.cursor = T + 1000 * 60000 := by
  refine ⟨⟨rfl, rfl, rfl, rfl, rfl⟩, ?_⟩
  intro T px
  have hne : (List.range 1000).map (fun i => (⟨T + i * 60000, px⟩ : Kline)) ≠ [] := by
    simp
  have he : (List.range 1000).map (fun i => (⟨T + i * 60000, px⟩ : Kline))
      = ((List.range 999).map fun i => (⟨T + i * 60000, px⟩ : Kline))
          ++ [⟨T + 999 * 60000, px⟩] := by
    have h1000 : (1000 : Nat) = 999 + 1 := by norm_num
    rw [h1000, List.range_succ, List.map_append]
    simp
  have h1 := driverStep_cursor_nonempty 60000 st _ hne
  have h2 : ((List.range 1000).map fun i => (⟨T + i * 60000, px⟩ : Kline)).getLast hne
      = ⟨T + 999 * 60000, px⟩ := getLast_eq_of_eq_append _ _ _ hne he
  have h3 : (driverStep 60000 st (some ((List.range 1000).map fun i =>
      ⟨T + i * 60000, px⟩))).1.cursor = T + 999 * 60000 + 60000 := by
    rw [h1, h2]
  exact h3.trans (by omega)

/-- C2 counterexample: with interval `1m`, `end_time = 1000` and an empty
fetch result at cursor `0`, the code advances the cursor to
`0 + 1000*60000` (the UNclamped window end plus one), not to
`min(0 + 1000*60000 - 1, end_time) + 1 = 1001` as the claim states. -/
theorem c2_empty_window_cursor_counterexample :
    ¬ ((driverRun 60000 1000 [fun _ => some []] (initState 0)).1.cursor
        = min (0 + 1000 * 60000 - 1) 1000 + 1) := by
  decide

/-- C2 (amended): on an empty fetch result that does not trip the
empty-window ceiling, the loop increments `consecutive_empty_count` and
continues with the cursor advanced to `(cursor + 1000*interval_ms - 1) + 1`
— one past the UNCLAMPED window end — although the fetch request itself was
issued over the clamped window `[cursor, min(cursor + 1000*interval_ms - 1,
end_ms)]`. -/
theorem c2_empty_window_advances_unclamped (intervalMs endTime : Nat)
    (f : Nat × Nat → Option (List Kline))
    (rest : List (Nat × Nat → Option (List Kline))) (st : DriverState)
    (hc : st.cursor < endTime)
    (hf : f (fetchWindow intervalMs endTime st.cursor) = some [])
    (hceil : st.emptyIntervals + 1 ≤ maxEmptyIntervals) :
    driverRun intervalMs endTime (f :: rest) st =
      driverRun intervalMs endTime rest
        { st with
            emptyIntervals := st.emptyIntervals + 1
            cursor := st.cursor + 1000 * intervalMs - 1 + 1 } := by
  have hnot : ¬ (st.emptyIntervals + 1 > maxEmptyIntervals) := by omega
  simp [driverRun, hc, hf, driverStep, hnot]

/-- Witness for the amended C2 at a concrete instance (interval `1m`,
`end_time = 1000`, one empty fetch). -/
theorem c2_empty_window_advances_unclamped_witness :
    driverRun 60000 1000 [fun _ => some []] (initState 0) =
      driverRun 60000 1000 []
        { initState 0 with
            emptyIntervals := (initState 0).emptyIntervals + 1
            cursor := (initState 0).cursor + 1000 * 60000 - 1 + 1 } :=
  c2_empty_window_advances_unclamped 60000 1000 _ [] (initState 0)
    (by decide) rfl (by decide)

/-- C3: when the empty fetch pushes `consecutive_empty_count` past the
ceiling of 100, the loop breaks at once — the remaining iterations are
never run, no further effect is produced — and the final state keeps the
cursor at the start of the empty window that triggered the abort (buffer
and request count also unchanged). -/
theorem c3_empty_ceiling_aborts_without_advancing (intervalMs endTime : Nat)
    (f : Nat × Nat → Option (List Kline))
    (rest : List (Nat × Nat → Option (List Kline))) (st : DriverState)
    (hc : st.cursor < endTime)
    (hf : f (fetchWindow intervalMs endTime st.cursor) = some [])
    (hceil : st.emptyIntervals + 1 > maxEmptyIntervals) :
    driverRun intervalMs endTime (f :: rest) st
        = ({ st with emptyIntervals := st.emptyIntervals + 1 }, []) ∧
      ({ st with emptyIntervals := st.emptyIntervals + 1 } : DriverState).cursor
        = st.cursor := by
  refine ⟨?_, rfl⟩
  simp [driverRun, hc, hf, driverStep, hceil]

/-- Witness for C3 at a concrete instance: the 101st consecutive empty
window halts the loop with the cursor still at its start. -/
theorem c3_empty_ceiling_aborts_without_advancing_witness :
    driverRun 60000 1000 [fun _ => some []] { initState 0 with emptyIntervals := 100 }
        = ({ initState 0 with emptyIntervals := 101 }, []) ∧
      ({ initState 0 with emptyIntervals := 101 } : DriverState).cursor
        = ({ initState 0 with emptyIntervals := 100 } : DriverState).cursor := by
  have h := c3_empty_ceiling_aborts_without_advancing 60000 1000 (fun _ => some []) []
    { initState 0 with emptyIntervals := 100 } (by decide) rfl (by decide)
  exact h

/-- C8: on a fatal fetch result (`None`) the loop records a single fixed
60-second cooldown sleep and re-enters with the state — cursor, buffer,
`consecutive_empty_count` and request count — completely unchanged, so the
next iteration recomputes the identical window. -/
theorem c8_fatal_cooldown_retries_same_window (intervalMs endTime : Nat)
    (f : Nat × Nat → Option (List Kline))
    (rest : List (Nat × Nat → Option (List Kline))) (st : DriverState)
    (hc : st.cursor < endTime)
    (hf : f (fetchWindow intervalMs endTime st.cursor) = none) :
    driverRun intervalMs endTime (f :: rest) st =
      ((driverRun intervalMs endTime rest st).1,
        Effect.sleep 60 :: (driverRun intervalMs endTime rest st).2) := by
  simp [driverRun, hc, hf, driverStep]

/-- Witness for C8 at a concrete instance. -/
theorem c8_fatal_cooldown_retries_same_window_witness :
    driverRun 60000 1000 [fun _ => none] (initState 0) =
      ((driverRun 60000 1000 [] (initState 0)).1,
        Effect.sleep 60 :: (driverRun 60000 1000 [] (initState 0)).2) :=
  c8_fatal_cooldown_retries_same_window 60000 1000 _ [] (initState 0) (by decide) rfl

/-! ## Theorems about finalization and the checkpoint invariant -/

/-- `saveContents` distributes over trace concatenation. -/
theorem saveContents_append (l1 l2 : List Effect) :
    saveContents (l1 ++ l2) = saveContents l1 ++ saveContents l2 := by
  induction l1 with
  | nil => rfl
  | cons e rest ih => cases e <;> simp [saveContents, ih]

/-- C4: whatever cuts the loop — normal completion (`cursor ≥ end_ms`), the
empty-window abort, or an exception/interrupt at any iteration boundary
(oracle exhaustion) — the `finally` block appends exactly one more
checkpoint write of the full final buffer to the trace, and the report says
`completed` exactly when the cursor reached `end_ms`, along with the last
successful window start and the total request count. -/
theorem c4_finalization_always_saves_and_reports (intervalMs endTime : Nat)
    (env : List (Nat × Nat → Option (List Kline))) (st0 : DriverState) :
    (mainRun intervalMs endTime env st0).2.1
        = (driverRun intervalMs endTime env st0).2
            ++ [Effect.save (mainRun intervalMs endTime env st0).1.buffer] ∧
      saveContents (mainRun intervalMs endTime env st0).2.1
        = saveContents (driverRun intervalMs endTime env st0).2
            ++ [(mainRun intervalMs endTime env st0).1.buffer] ∧
      (mainRun intervalMs endTime env st0).2.2
        = { completed := decide ((mainRun intervalMs endTime env st0).1.cursor ≥ endTime)
            lastSuccessful := (mainRun intervalMs endTime env st0).1.lastSuccessful
            requestCount := (mainRun intervalMs endTime env st0).1.requestCount } := by
  refine ⟨rfl, ?_, rfl⟩
  show saveContents ((driverRun intervalMs endTime env st0).2
      ++ [Effect.save (driverRun intervalMs endTime env st0).1.buffer]) = _
  rw [saveContents_append]
  rfl

/-- A single loop iteration never removes or reorders buffer entries: the
old buffer is a prefix of the new one. -/
theorem driverStep_buffer_extends (intervalMs : Nat) (st : DriverState)
    (r : Option (List Kline)) :
    st.buffer <+: (driverStep intervalMs st r).1.buffer := by
  match r with
  | none => exact List.prefix_refl _
  | some [] =>
    simp only [driverStep]
    split
    · exact List.prefix_refl _
    · exact List.prefix_refl _
  | some (k :: tl) => exact List.prefix_append _ _

/-- Any checkpoint written during a single loop iteration contains exactly
the buffer as it stands after that iteration. -/
theorem driverStep_save_content (intervalMs : Nat) (st : DriverState)
    (r : Option (List Kline)) (b : List (Nat × String))
    (hb : b ∈ saveContents (driverStep intervalMs st r).2.2) :
    b = (driverStep intervalMs st r).1.buffer := by
  match r with
  | none => simp [driverStep, saveContents] at hb
  | some [] =>
    simp only [driverStep] at hb ⊢
    split at hb
    · simp [saveContents] at hb
    · simp [saveContents] at hb
  | some (k :: tl) =>
    by_cases h : (st.requestCount + 1) % 50 = 0
    · simp [driverStep, saveContents, h] at hb ⊢
      exact hb
    · simp [driverStep, saveContents, h] at hb

/-- Across a whole loop run the buffer only grows: the starting buffer is a
prefix of the final buffer. -/
theorem driverRun_buffer_extends (intervalMs endTime : Nat)
    (env : List (Nat × Nat → Option (List Kline))) (st : DriverState) :
    st.buffer <+: (driverRun intervalMs endTime env st).1.buffer := by
  induction env generalizing st with
  | nil => exact List.prefix_refl _
  | cons f rest ih =>
    by_cases hc : st.cursor < endTime
    · simp only [driverRun, if_pos hc]
      split
      · exact (driverStep_buffer_extends intervalMs st _).trans (ih _)
      · exact driverStep_buffer_extends intervalMs st _
    · simp only [driverRun, if_neg hc]
      exact List.prefix_refl _

/-- Every checkpoint written during a loop run contains everything the
buffer held at run start, and is itself a prefix of the final buffer. -/
theorem driverRun_save_bounds (intervalMs endTime : Nat)
    (env : List (Nat × Nat → Option (List Kline))) (st : DriverState)
    (b : List (Nat × String))
    (hb : b ∈ saveContents (driverRun intervalMs endTime env st).2) :
    st.buffer <+: b ∧ b <+: (driverRun intervalMs endTime env st).1.buffer := by
  induction env generalizing st with
  | nil => simp [driverRun, saveContents] at hb
  | cons f rest ih =>
    by_cases hc : st.cursor < endTime
    · simp only [driverRun, if_pos hc] at hb ⊢
      by_cases hcont : (driverStep intervalMs st
          (f (fetchWindow intervalMs endTime st.cursor))).2.1 = true
      · rw [if_pos hcont] at hb ⊢
        rw [saveContents_append, List.mem_append] at hb
        rcases hb with hb | hb
        · have hcontent := driverStep_save_content intervalMs st _ b hb
          subst hcontent
          exact ⟨driverStep_buffer_extends intervalMs st _,
            driverRun_buffer_extends intervalMs endTime rest _⟩
        · have h2 := ih _ hb
          exact ⟨(driverStep_buffer_extends intervalMs st _).trans h2.1, h2.2⟩
      · rw [if_neg hcont] at hb ⊢
        have hcontent := driverStep_save_content intervalMs st _ b hb
        subst hcontent
        exact ⟨driverStep_buffer_extends intervalMs st _, List.prefix_refl _⟩
    · simp [driverRun, if_neg hc, saveContents] at hb

/-- A single loop iteration writes either no checkpoint or exactly one,
whose content is the buffer after the iteration. -/
theorem driverStep_saveContents (intervalMs : Nat) (st : DriverState)
    (r : Option (List Kline)) :
    saveContents (driverStep intervalMs st r).2.2 = [] ∨
      saveContents (driverStep intervalMs st r).2.2
        = [(driverStep intervalMs st r).1.buffer] := by
  match r with
  | none => left; rfl
  | some [] =>
    simp only [driverStep]
    split
    · left; rfl
    · left; rfl
  | some (k :: tl) =>
    by_cases h : (st.requestCount + 1) % 50 = 0
    · right; simp [driverStep, saveContents, h]
    · left; simp [driverStep, saveContents, h]

/-- The checkpoints written during a loop run form a prefix chain: each
successive checkpoint extends the previous one. -/
theorem driverRun_saves_chain (intervalMs endTime : Nat)
    (env : List (Nat × Nat → Option (List Kline))) (st : DriverState) :
    List.Chain' (· <+: ·) (saveContents (driverRun intervalMs endTime env st).2) := by
  induction env generalizing st with
  | nil => simp [driverRun, saveContents]
  | cons f rest ih =>
    by_cases hc : st.cursor < endTime
    · simp only [driverRun, if_pos hc]
      split
      · rw [saveContents_append]
        rcases driverStep_saveContents intervalMs st
            (f (fetchWindow intervalMs endTime st.cursor)) with h | h
        · rw [h]
          simpa using ih _
        · rw [h]
          rw [List.singleton_append, List.chain'_cons']
          refine ⟨?_, ih _⟩
          intro y hy
          exact (driverRun_save_bounds intervalMs endTime rest _ y
            (List.mem_of_mem_head? hy)).1
      · rcases driverStep_saveContents intervalMs st
            (f (fetchWindow intervalMs endTime st.cursor)) with h | h
        · rw [h]
          exact List.chain'_nil
        · rw [h]
          exact List.chain'_singleton _
    · simp [driverRun, if_neg hc, saveContents]

/-- C9: the accumulation buffer is append-only over the whole run — the
initial buffer is a prefix of the final one — every checkpoint write,
periodic or final, holds a prefix chain between the run-start buffer and
the final buffer (it contains the full series accumulated up to that
point), and successive checkpoints extend one another. -/
theorem c9_buffer_append_only (intervalMs endTime : Nat)
    (env : List (Nat × Nat → Option (List Kline))) (st0 : DriverState) :
    st0.buffer <+: (mainRun intervalMs endTime env st0).1.buffer ∧
      (∀ b ∈ saveContents (mainRun intervalMs endTime env st0).2.1,
        st0.buffer <+: b ∧ b <+: (mainRun intervalMs endTime env st0).1.buffer) ∧
      List.Chain' (· <+: ·) (saveContents (mainRun intervalMs endTime env st0).2.1) := by
  have hfinal : (mainRun intervalMs endTime env st0).1
      = (driverRun intervalMs endTime env st0).1 := rfl
  have htrace : saveContents (mainRun intervalMs endTime env st0).2.1
      = saveContents (driverRun intervalMs endTime env st0).2
          ++ [(driverRun intervalMs endTime env st0).1.buffer] := by
    show saveContents ((driverRun intervalMs endTime env st0).2
        ++ [Effect.save (driverRun intervalMs endTime env st0).1.buffer]) = _
    rw [saveContents_append]
    rfl
  refine ⟨hfinal ▸ driverRun_buffer_extends intervalMs endTime env st0, ?_, ?_⟩
  · intro b hb
    rw [htrace, List.mem_append] at hb
    rw [hfinal]
    rcases hb with hb | hb
    · exact driverRun_save_bounds intervalMs endTime env st0 b hb
    · rw [List.mem_singleton] at hb
      subst hb
      exact ⟨driverRun_buffer_extends intervalMs endTime env st0, List.prefix_refl _⟩
  · rw [htrace]
    refine (driverRun_saves_chain intervalMs endTime env st0).append
      (List.chain'_singleton _) ?_
    intro x hx y hy
    rw [List.head?_cons, Option.mem_some_iff] at hy
    subst hy
    exact (driverRun_save_bounds intervalMs endTime env st0 x
      (List.mem_of_mem_getLast? hx)).2

/-- Witness for C9: one successful fetch of a single candle, then
finalization; the final checkpoint content sits between the empty initial
buffer and the final buffer. -/
theorem c9_buffer_append_only_witness :
    (initState 0).buffer <+: [(0, "1")] ∧
      [(0, "1")] <+: (mainRun 60000 1 [fun _ => some [⟨0, "1"⟩]] (initState 0)).1.buffer :=
  (c9_buffer_append_only 60000 1 [fun _ => some [⟨0, "1"⟩]] (initState 0)).2.1
    [(0, "1")] (by decide)

end GetAllPrices
